import Mathlib

/-!
Verification of the quantbot paper-trading core against its specification:
the simulated broker ledger (broker.py, class _SimBroker and the Broker
facade), the moving-average signal engine (runner.py, Runner._compute_indicators
and Runner._decide_signal), position sizing (runner.py
Runner._position_size_by_alloc; utils.py compute_position_size_equity_pct and
compute_position_size_risk_based) and price quantization
(broker.py _AlpacaBroker._quantize_price; utils.py quantize_price).

Python floats are modelled as exact rationals.  Where NaN / infinity
behaviour is load-bearing (the utils position-sizing guards), a dedicated
PyFloat type with nan and signed infinities is used, mirroring Python
comparison semantics (every comparison with NaN is false) and the behaviour
of float floor-division and int() conversion on non-finite values.
-/

/-- Result value of a Python exception-raising computation: either a normal
value or a raised exception carrying its message. -/
inductive PyResult (α : Type) where
  | ok : α → PyResult α
  | raised : String → PyResult α
  deriving Repr, DecidableEq

/-- The result dict built by _SimBroker.place_order (broker.py lines 70-78
and 93-101); the status and id fields are constant so they are omitted. -/
structure OrderRes where
  symbol : String
  side : String
  qty : ℤ
  filled_qty : ℤ
  filled_avg_price : ℚ
  deriving Repr, DecidableEq

/-- State of a _SimBroker instance (broker.py lines 27-31): cash plus the
positions dict mapping symbol to (qty, avg_price), here an association list,
together with the trade rows appended by db.persist_trade on each
successful order (broker.py lines 105-122). -/
structure SimState where
  cash : ℚ
  positions : List (String × ℤ × ℚ)
  trades : List OrderRes
  deriving Repr, DecidableEq

/-- Python str.upper() restricted to ASCII, as applied to symbols and sides. -/
def pyUpper (s : String) : String := String.mk (s.data.map Char.toUpper)

/-- positions.get(symbol, (0, 0.0)) on the association-list model of the
positions dict. -/
def getPos : List (String × ℤ × ℚ) → String → ℤ × ℚ
  | [], _ => (0, 0)
  | e :: rest, sym => if e.1 = sym then e.2 else getPos rest sym

/-- positions[symbol] = v on the association-list model of the dict. -/
def setPos : List (String × ℤ × ℚ) → String → ℤ × ℚ → List (String × ℤ × ℚ)
  | [], sym, v => [(sym, v)]
  | e :: rest, sym, v => if e.1 = sym then (sym, v) :: rest else e :: setPos rest sym v

/-- positions.pop(symbol, None) on the association-list model of the dict. -/
def delPos : List (String × ℤ × ℚ) → String → List (String × ℤ × ℚ)
  | [], _ => []
  | e :: rest, sym => if e.1 = sym then rest else e :: delPos rest sym

/-- _SimBroker.place_order (broker.py lines 47-124).  Raised exceptions are
returned as PyResult.raised together with the unchanged state: every raise in
the Python body happens before any mutation of cash or positions.  The
best-effort db.persist_trade call is modelled as appending the filled order
to the trades log on success. -/
def place_order (st : SimState) (symbol side : String) (price : Option ℚ) (qty : ℤ)
    (fees : ℚ) : SimState × PyResult OrderRes :=
  let symbol := pyUpper symbol
  let side := pyUpper side
  if qty ≤ 0 then (st, .raised ("Quantity must be > 0"))
  else if side = "BUY" then
    match price with
    | none => (st, .raised ("SimBroker requires a price for BUY in this simple implementation"))
    | some p =>
        let cost : ℚ := p * (qty : ℚ) + fees
        if st.cash < cost then (st, .raised ("Insufficient cash for BUY"))
        else
          let prev := getPos st.positions symbol
          let new_qty : ℤ := prev.1 + qty
          let new_avg : ℚ :=
            if new_qty ≠ 0 then ((prev.1 : ℚ) * prev.2 + p * (qty : ℚ)) / (new_qty : ℚ) else 0
          let res : OrderRes := ⟨symbol, "BUY", qty, qty, p⟩
          (⟨st.cash - cost, setPos st.positions symbol (new_qty, new_avg),
            st.trades ++ [res]⟩, .ok res)
  else if side = "SELL" then
    let prev := getPos st.positions symbol
    let sell_qty : ℤ := min qty prev.1
    if sell_qty ≤ 0 then (st, .raised ("No shares to sell"))
    else
      match price with
      | none => (st, .raised ("SimBroker requires a price for SELL in this simple implementation"))
      | some p =>
          let proceeds : ℚ := p * (sell_qty : ℚ) - fees
          let new_qty : ℤ := prev.1 - sell_qty
          let positions' :=
            if new_qty = 0 then delPos st.positions symbol
            else setPos st.positions symbol (new_qty, prev.2)
          let res : OrderRes := ⟨symbol, "SELL", qty, sell_qty, p⟩
          (⟨st.cash + proceeds, positions', st.trades ++ [res]⟩, .ok res)
  else (st, .raised ("Unknown side"))

/-- Parameter names accepted by _SimBroker.place_order (broker.py line 47):
def place_order(self, symbol, side, price, qty, fees=0.0), no **kwargs. -/
def simPlaceOrderParamNames : List String := ["symbol", "side", "price", "qty", "fees"]

/-- Keyword-argument names the Broker facade passes on every call
(broker.py line 335): fees=fees, stop_price=stop_price, take_price=take_price,
passed unconditionally even when their values are None. -/
def facadeKeywordNames : List String := ["fees", "stop_price", "take_price"]

/-- Broker.place_order (broker.py lines 333-335) with the simulated
implementation selected at construction.  Python raises TypeError before
the callee body runs when a keyword argument does not match any parameter
name, so the call dispatches to _SimBroker.place_order only if every
forwarded keyword is among its parameter names. -/
def broker_place_order (st : SimState) (symbol side : String) (price : Option ℚ) (qty : ℤ)
    (fees : ℚ) (stop_price take_price : Option ℚ) : SimState × PyResult OrderRes :=
  if facadeKeywordNames.all (fun k => simPlaceOrderParamNames.contains k) then
    place_order st symbol side price qty fees
  else (st, .raised ("TypeError: place_order got an unexpected keyword argument stop_price"))

/-- One order request, as passed to _SimBroker.place_order. -/
structure OrderReq where
  symbol : String
  side : String
  price : Option ℚ
  qty : ℤ
  fees : ℚ
  deriving Repr, DecidableEq

/-- Run a sequence of _SimBroker.place_order calls; a raised exception leaves
the ledger unchanged and the sequence continues, as in a caller that catches
per-order errors. -/
def applyOrders (st : SimState) : List OrderReq → SimState
  | [] => st
  | o :: rest => applyOrders (place_order st o.symbol o.side o.price o.qty o.fees).1 rest

/-- Smoothing factor used by pandas ewm(span=long, adjust=False):
alpha = 2 / (span + 1). -/
def emaAlpha (span : ℕ) : ℚ := 2 / ((span : ℚ) + 1)

/-- Last value of pandas Series.ewm(span, adjust=False).mean(): seeded at the
first element and recursively updated with y = alpha*x + (1-alpha)*y. -/
def emaLast (span : ℕ) : List ℚ → Option ℚ
  | [] => none
  | x :: xs => some (xs.foldl (fun prev c => emaAlpha span * c + (1 - emaAlpha span) * prev) x)

/-- Last value of pandas Series.rolling(short).mean(): the mean of the last
short points (meaningful when short ≤ length, as guarded at call sites). -/
def smaLast (short : ℕ) (h : List ℚ) : ℚ :=
  (h.drop (h.length - short)).sum / (short : ℚ)

/-- Runner._compute_indicators (runner.py lines 118-125): returns
(sma_short, ema_long) with none standing for np.nan.  Empty or too-short
history gives (nan, nan); otherwise the SMA needs short points and the EMA
needs at least 2 points. -/
def computeIndicators (short long : ℕ) (h : List ℚ) : Option ℚ × Option ℚ :=
  if h.isEmpty ∨ h.length < min short long then (none, none)
  else
    (if short ≤ h.length then some (smaLast short h) else none,
     if 2 ≤ h.length then emaLast long h else none)

/-- The previous indicator pair computed inside Runner._decide_signal
(runner.py lines 132-136): on history[:-1], only when the full history has
at least max(short, long) + 1 points. -/
def prevIndicators (short long : ℕ) (h : List ℚ) : Option ℚ × Option ℚ :=
  if max short long + 1 ≤ h.length then
    (if short ≤ h.dropLast.length then some (smaLast short h.dropLast) else none,
     if 2 ≤ h.dropLast.length then emaLast long h.dropLast else none)
  else (none, none)

/-- Runner._decide_signal (runner.py lines 127-149): crossover checks against
the previous pair when it is fully defined, then an unconditional level
comparison, then HOLD. -/
def decideSignal (short long : ℕ) (h : List ℚ) : Option ℚ → Option ℚ → String
  | some s, some e =>
    (match prevIndicators short long h with
     | (some ps, some pe) =>
        if ps ≤ pe ∧ e < s then "BUY"
        else if pe ≤ ps ∧ s < e then "SELL"
        else if e < s then "BUY"
        else if s < e then "SELL"
        else "HOLD"
     | _ =>
        if e < s then "BUY"
        else if s < e then "SELL"
        else "HOLD")
  | _, _ => "HOLD"

/-- One signal computation as performed in Runner.step (runner.py lines
216-217): indicators from the history, then the decision rule. -/
def signalOf (short long : ℕ) (h : List ℚ) : String :=
  decideSignal short long h (computeIndicators short long h).1 (computeIndicators short long h).2

/-- Runner._position_size_by_alloc (runner.py lines 154-167) with the equity
queried from broker.account_value passed as a parameter; price is None or a
rational (the pd.isna(price) guard is subsumed by the Option).  Python
int((budget - commission) // effective_price) is the floor of the quotient. -/
def position_size_by_alloc (equity : ℚ) (price : Option ℚ)
    (alloc_pct slippage_pct commission : ℚ) : ℤ :=
  let budget := equity * alloc_pct
  match price with
  | none => 0
  | some p =>
      if p = 0 then 0
      else
        let effective_price := p * (1 + slippage_pct)
        let qty : ℤ := ⌊(budget - commission) / effective_price⌋
        max 0 qty

/-- A Python float: an exact rational (float rounding is not modelled), NaN,
or a signed infinity. -/
inductive PyFloat where
  | fin : ℚ → PyFloat
  | nan : PyFloat
  | inf : PyFloat
  | ninf : PyFloat
  deriving Repr, DecidableEq

/-- The Python comparison x <= 0: false for NaN (every comparison with NaN is
false), false for +inf, true for -inf. -/
def PyFloat.le0 : PyFloat → Bool
  | .fin q => decide (q ≤ 0)
  | .nan => false
  | .inf => false
  | .ninf => true

/-- Python float multiplication on the PyFloat model. -/
def PyFloat.mul : PyFloat → PyFloat → PyFloat
  | .nan, _ => .nan
  | _, .nan => .nan
  | .fin a, .fin b => .fin (a * b)
  | .inf, .fin b => if 0 < b then .inf else if b < 0 then .ninf else .nan
  | .ninf, .fin b => if 0 < b then .ninf else if b < 0 then .inf else .nan
  | .fin a, .inf => if 0 < a then .inf else if a < 0 then .ninf else .nan
  | .fin a, .ninf => if 0 < a then .ninf else if a < 0 then .inf else .nan
  | .inf, .inf => .inf
  | .inf, .ninf => .ninf
  | .ninf, .inf => .ninf
  | .ninf, .ninf => .inf

/-- Python float subtraction on the PyFloat model. -/
def PyFloat.sub : PyFloat → PyFloat → PyFloat
  | .nan, _ => .nan
  | _, .nan => .nan
  | .fin a, .fin b => .fin (a - b)
  | .inf, .fin _ => .inf
  | .ninf, .fin _ => .ninf
  | .fin _, .inf => .ninf
  | .fin _, .ninf => .inf
  | .inf, .inf => .nan
  | .ninf, .ninf => .nan
  | .inf, .ninf => .inf
  | .ninf, .inf => .ninf

/-- Python abs() on the PyFloat model. -/
def PyFloat.pyabs : PyFloat → PyFloat
  | .fin q => .fin |q|
  | .nan => .nan
  | .inf => .inf
  | .ninf => .inf

/-- Python float floor division x // y.  NaN propagates; finite // finite is
the floor of the quotient; finite // ±inf is 0 or -1 by sign; ±inf on the
left gives NaN (C fmod(inf, y) is NaN).  Division by exactly 0 raises
ZeroDivisionError in Python; it is unreachable on the modelled code paths
(the callers guard price/risk_per_share <= 0 first) and is mapped to NaN. -/
def PyFloat.fdiv : PyFloat → PyFloat → PyFloat
  | .nan, _ => .nan
  | _, .nan => .nan
  | .fin a, .fin b => if b = 0 then .nan else .fin ((⌊a / b⌋ : ℤ) : ℚ)
  | .fin a, .inf => if 0 ≤ a then .fin 0 else .fin (-1)
  | .fin a, .ninf => if 0 < a then .fin (-1) else .fin 0
  | .inf, _ => .nan
  | .ninf, _ => .nan

/-- Python int(x) on a float: truncation toward zero for finite values,
ValueError on NaN, OverflowError on infinities. -/
def PyFloat.toPyInt : PyFloat → PyResult ℤ
  | .fin q => .ok (if 0 ≤ q then ⌊q⌋ else ⌈q⌉)
  | .nan => .raised ("ValueError: cannot convert float NaN to integer")
  | .inf => .raised ("OverflowError: cannot convert float infinity to integer")
  | .ninf => .raised ("OverflowError: cannot convert float infinity to integer")

/-- utils.compute_position_size_equity_pct (utils.py lines 184-200).  The
float() conversions of the try block cannot fail on float inputs and are
omitted; the result is the value returned or the exception raised by
int(alloc // price). -/
def compute_position_size_equity_pct (equity price alloc_pct : PyFloat) : PyResult ℤ :=
  if equity.le0 || price.le0 || alloc_pct.le0 then .ok 0
  else
    let alloc := equity.mul alloc_pct
    match (alloc.fdiv price).toPyInt with
    | .ok qty => .ok (max qty 0)
    | .raised e => .raised e

/-- utils.compute_position_size_risk_based (utils.py lines 203-224), modelled
like compute_position_size_equity_pct. -/
def compute_position_size_risk_based (equity entry_price stop_price risk_pct : PyFloat) :
    PyResult ℤ :=
  if equity.le0 || entry_price.le0 || risk_pct.le0 then .ok 0
  else
    let risk_amount := equity.mul risk_pct
    let risk_per_share := (entry_price.sub stop_price).pyabs
    if risk_per_share.le0 then .ok 0
    else
      match (risk_amount.fdiv risk_per_share).toPyInt with
      | .ok qty => .ok (max qty 0)
      | .raised e => .raised e

/-- Decimal ROUND_HALF_UP of q to an integer: ties round away from zero, as
in Python decimal.ROUND_HALF_UP. -/
def roundHalfUp (q : ℚ) : ℤ := if 0 ≤ q then ⌊q + 1 / 2⌋ else -⌊-q + 1 / 2⌋

/-- utils.quantize_price (utils.py lines 242-255): Decimal(str(price))
quantized to the given number of decimals with ROUND_HALF_UP, returned as a
float.  The rational argument stands for the exact decimal value produced by
str(price) (Python str of a float is its shortest round-tripping decimal
literal). -/
def quantize_price (price : ℚ) (decimals : ℕ) : ℚ :=
  ((roundHalfUp (price * 10 ^ decimals) : ℤ) : ℚ) / 10 ^ decimals

/-- Two-digit zero-padded fractional part for the cent formatter. -/
def twoDigitFrac (n : ℕ) : String := if n < 10 then "0" ++ toString n else toString n

/-- _AlpacaBroker._quantize_price (broker.py lines 168-178) at its default
decimals=2: the ROUND_HALF_UP quantization of the decimal representation of
the price, formatted as a plain decimal string (format(quantized, f)). -/
def quantizePriceStr2 (price : ℚ) : String :=
  let n := roundHalfUp (price * 100)
  toString (n / 100) ++ "." ++ twoDigitFrac (n % 100).toNat

/-- str.upper() fixes the already-uppercase side BUY. -/
theorem pyUpper_BUY : pyUpper "BUY" = "BUY" := rfl

/-- str.upper() fixes the already-uppercase side SELL. -/
theorem pyUpper_SELL : pyUpper "SELL" = "SELL" := rfl

/-- str.upper() sends the lowercase side sell to SELL. -/
theorem pyUpper_sell_lower : pyUpper "sell" = "SELL" := rfl

/-- str.upper() fixes the symbol AAPL. -/
theorem pyUpper_AAPL : pyUpper "AAPL" = "AAPL" := rfl

/-- str.upper() fixes the one-letter symbol A. -/
theorem pyUpper_A : pyUpper "A" = "A" := rfl

/-- The side strings SELL and BUY are distinct. -/
theorem str_SELL_ne_BUY : ("SELL" : String) ≠ "BUY" := by decide

/-- C1 counterexample: on the history [1, 2, 3] with short = 2 and long = 2,
a valid previous indicator pair exists (prev_sma = 3/2, prev_ema = 5/3), the
previous short-average is below the previous long-average and the current
short-average 5/2 remains below the current long-average 23/9 (no crossover),
yet _decide_signal returns SELL, not HOLD: the level-comparison fallback fires
even though a valid previous pair exists. -/
theorem decide_signal_no_crossover_cex :
    prevIndicators 2 2 [1, 2, 3] = (some (3 / 2), some (5 / 3)) ∧
    (3 / 2 : ℚ) < 5 / 3 ∧
    computeIndicators 2 2 [1, 2, 3] = (some (5 / 2), some (23 / 9)) ∧
    (5 / 2 : ℚ) < 23 / 9 ∧
    signalOf 2 2 [1, 2, 3] = "SELL" := by
  refine ⟨?_, by norm_num, ?_, by norm_num, ?_⟩ <;>
    norm_num [prevIndicators, computeIndicators, signalOf, decideSignal, smaLast, emaLast,
      emaAlpha]

/-- C1 (amended): when a valid previous indicator pair exists and no crossover
occurred (previous short-average strictly above the long-average and still
strictly above, or strictly below and still strictly below), _decide_signal
does not return HOLD: the level-comparison fallback applies unconditionally,
so the signal is BUY when short > long and SELL when short < long.  Emitting
an order only once per crossover is enforced elsewhere (Runner.step compares
the signal with last_signal), not by _decide_signal. -/
theorem decide_signal_no_crossover_falls_to_levels (short long : ℕ) (h : List ℚ)
    (s e ps pe : ℚ)
    (hind : computeIndicators short long h = (some s, some e))
    (hprev : prevIndicators short long h = (some ps, some pe))
    (hnc : (pe < ps ∧ e < s) ∨ (ps < pe ∧ s < e)) :
    signalOf short long h = if e < s then "BUY" else "SELL" := by
  rcases hnc with ⟨h1, h2⟩ | ⟨h1, h2⟩ <;>
    simp only [signalOf, hind, decideSignal, hprev]
  · rw [if_neg (fun hx : ps ≤ pe ∧ e < s => absurd hx.1 (not_le.mpr h1)),
      if_neg (fun hx : pe ≤ ps ∧ s < e => absurd hx.2 (lt_asymm h2)),
      if_pos h2, if_pos h2]
  · rw [if_neg (fun hx : ps ≤ pe ∧ e < s => absurd hx.2 (lt_asymm h2)),
      if_neg (fun hx : pe ≤ ps ∧ s < e => absurd hx.1 (not_le.mpr h1)),
      if_neg (lt_asymm h2), if_pos h2, if_neg (lt_asymm h2)]

/-- C1 witness: the amended theorem applied to the concrete history
[1, 2, 3] with short = 2, long = 2, giving SELL. -/
theorem decide_signal_no_crossover_falls_to_levels_wit :
    signalOf 2 2 [1, 2, 3] = if (23 / 9 : ℚ) < 5 / 2 then "BUY" else "SELL" := by
  have hmain := decide_signal_no_crossover_falls_to_levels 2 2 [1, 2, 3]
    (5 / 2) (23 / 9) (3 / 2) (5 / 3)
    (by norm_num [computeIndicators, smaLast, emaLast, emaAlpha])
    (by norm_num [prevIndicators, smaLast, emaLast, emaAlpha])
    (Or.inr (by norm_num))
  exact hmain

/-- C2: with the simulated implementation selected, Broker.place_order always
raises TypeError for any symbol, side, price, positive quantity and fees: the
facade forwards the stop_price and take_price keywords that
_SimBroker.place_order does not accept, Python raises before the callee body
runs, and the ledger (cash, positions) and the persisted trades are exactly
unchanged. -/
theorem broker_place_order_sim_type_error (st : SimState) (symbol side : String)
    (price : Option ℚ) (qty : ℤ) (fees : ℚ) (stop_price take_price : Option ℚ)
    (hq : 0 < qty) :
    broker_place_order st symbol side price qty fees stop_price take_price =
      (st, PyResult.raised
        ("TypeError: place_order got an unexpected keyword argument stop_price")) := by
  have hfalse : ¬ (facadeKeywordNames.all fun k => simPlaceOrderParamNames.contains k) = true := by
    decide
  unfold broker_place_order
  rw [if_neg hfalse]

/-- C2 witness: the facade TypeError at a concrete order. -/
theorem broker_place_order_sim_type_error_wit :
    broker_place_order ⟨100000, [], []⟩ "AAPL" "BUY" (some 100) 10 1 none none =
      (⟨100000, [], []⟩, PyResult.raised
        ("TypeError: place_order got an unexpected keyword argument stop_price")) :=
  broker_place_order_sim_type_error ⟨100000, [], []⟩ "AAPL" "BUY" (some 100) 10 1 none none
    (by decide)

/-- One _SimBroker.place_order call keeps cash non-negative provided any SELL
it performs has a non-negative price at least as large as its fees (the
proceeds of at least one share cover the fees); BUY needs no side condition
because an overdraw is rejected before mutation. -/
theorem place_order_cash_nonneg (st : SimState) (symbol side : String) (price : Option ℚ)
    (qty : ℤ) (fees : ℚ) (h0 : 0 ≤ st.cash)
    (hsell : pyUpper side = "SELL" → ∀ p, price = some p → 0 ≤ p ∧ fees ≤ p) :
    0 ≤ (place_order st symbol side price qty fees).1.cash := by
  simp only [place_order]
  by_cases hq : qty ≤ 0
  · rw [if_pos hq]; exact h0
  rw [if_neg hq]
  by_cases hb : pyUpper side = "BUY"
  · rw [if_pos hb]
    cases price with
    | none => exact h0
    | some p =>
        simp only
        by_cases hc : st.cash < p * (qty : ℚ) + fees
        · rw [if_pos hc]; exact h0
        · rw [if_neg hc]
          simp only [SimState.cash]
          linarith [not_lt.mp hc]
  rw [if_neg hb]
  by_cases hs : pyUpper side = "SELL"
  · rw [if_pos hs]
    by_cases hsq : min qty (getPos st.positions (pyUpper symbol)).1 ≤ 0
    · rw [if_pos hsq]; exact h0
    · rw [if_neg hsq]
      cases price with
      | none => exact h0
      | some p =>
          simp only [SimState.cash]
          obtain ⟨hp0, hfp⟩ := hsell hs p rfl
          have h1 : (1 : ℤ) ≤ min qty (getPos st.positions (pyUpper symbol)).1 := by omega
          have h1q : (1 : ℚ) ≤ ((min qty (getPos st.positions (pyUpper symbol)).1 : ℤ) : ℚ) := by
            exact_mod_cast h1
          have hmul : p * 1 ≤ p * ((min qty (getPos st.positions (pyUpper symbol)).1 : ℤ) : ℚ) :=
            mul_le_mul_of_nonneg_left h1q hp0
          linarith
  rw [if_neg hs]
  exact h0

/-- C3 counterexample: starting from non-negative cash 100 and running orders
whose fees are all non-negative (0 and 1), the simulated ledger reaches
negative cash: BUY 1 share of A at 100 with fees 0 leaves cash 0, then SELL
1 share at price 1/2 with fees 1 credits proceeds 1/2 - 1 = -1/2, leaving
cash -1/2 < 0.  The SELL path has no overdraw check. -/
theorem sim_cash_negative_cex :
    (0 : ℚ) ≤ 100 ∧
    (0 : ℚ) ≤ 0 ∧ (0 : ℚ) ≤ 1 ∧
    (applyOrders ⟨100, [], []⟩
      [⟨"A", "BUY", some 100, 1, 0⟩, ⟨"A", "SELL", some (1 / 2), 1, 1⟩]).cash < 0 := by
  refine ⟨by norm_num, by norm_num, by norm_num, ?_⟩
  norm_num [applyOrders, place_order, pyUpper_BUY, pyUpper_SELL, pyUpper_A, getPos, setPos,
    delPos, str_SELL_ne_BUY]

/-- C3 (amended): over any sequence of _SimBroker.place_order calls from
non-negative initial cash, cash stays non-negative provided every SELL order
carries a non-negative price no smaller than its fees; without that proviso a
SELL whose fees exceed its proceeds drives cash negative (the BUY overdraw
check is the only rejection, as the counterexample shows). -/
theorem sim_cash_nonneg_of_sell_fees_covered (st : SimState) (orders : List OrderReq)
    (h0 : 0 ≤ st.cash)
    (hsell : ∀ o ∈ orders, pyUpper o.side = "SELL" → ∀ p, o.price = some p → 0 ≤ p ∧ o.fees ≤ p) :
    0 ≤ (applyOrders st orders).cash := by
  induction orders generalizing st with
  | nil => exact h0
  | cons o rest ih =>
      simp only [applyOrders]
      refine ih _ ?_ (fun o' ho' => hsell o' (List.mem_cons_of_mem _ ho'))
      exact place_order_cash_nonneg st o.symbol o.side o.price o.qty o.fees h0
        (hsell o (List.mem_cons_self _ _))

/-- C3 witness: the amended invariant at a concrete run whose SELL has
price 110 ≥ fees 1. -/
theorem sim_cash_nonneg_of_sell_fees_covered_wit :
    0 ≤ (applyOrders ⟨100000, [], []⟩
      [⟨"AAPL", "BUY", some 100, 10, 1⟩, ⟨"AAPL", "SELL", some 110, 10, 1⟩]).cash := by
  refine sim_cash_nonneg_of_sell_fees_covered ⟨100000, [], []⟩ _ (by norm_num) ?_
  intro o ho hside p hp
  simp only [List.mem_cons, List.not_mem_nil, or_false] at ho
  rcases ho with h | h
  · exfalso
    rw [h] at hside
    rw [pyUpper_BUY] at hside
    exact str_SELL_ne_BUY.symm hside
  · subst h
    simp only [Option.some.injEq] at hp
    constructor <;> simp only [← hp] <;> norm_num

/-- C4: a BUY with a non-null price whose cost price*qty + fees exceeds the
available cash raises an error and leaves the simulated ledger (cash,
positions and persisted trades) exactly unchanged: every raise in the BUY
path happens before any mutation. -/
theorem sim_buy_insufficient_cash_atomic (st : SimState) (symbol side : String) (p : ℚ)
    (qty : ℤ) (fees : ℚ) (hside : pyUpper side = "BUY")
    (hover : st.cash < p * (qty : ℚ) + fees) :
    (place_order st symbol side (some p) qty fees).1 = st ∧
      ∃ msg, (place_order st symbol side (some p) qty fees).2 = PyResult.raised msg := by
  simp only [place_order, hside]
  by_cases hq : qty ≤ 0
  · rw [if_pos hq]
    exact ⟨rfl, _, rfl⟩
  · rw [if_neg hq, if_true, if_pos hover]
    exact ⟨rfl, _, rfl⟩

/-- C4 witness: BUY 10 at 100 with fees 1 against cash 500 is rejected with
the ledger unchanged. -/
theorem sim_buy_insufficient_cash_atomic_wit :
    (place_order ⟨500, [], []⟩ "AAPL" "BUY" (some 100) 10 1).1 = ⟨500, [], []⟩ ∧
      ∃ msg, (place_order ⟨500, [], []⟩ "AAPL" "BUY" (some 100) 10 1).2 =
        PyResult.raised msg :=
  sim_buy_insufficient_cash_atomic ⟨500, [], []⟩ "AAPL" "BUY" 100 10 1 pyUpper_BUY
    (by norm_num)

/-- C5: from a fresh _SimBroker with cash 100000 and no positions, BUY of 10
shares at 100 with fees 1 leaves cash 98999 and the position (10, 100) for
the symbol; the subsequent SELL of 10 shares at 110 with fees 1 removes the
position entry and leaves cash 98999 + 1099 = 100098. -/
theorem sim_buy_then_sell_concrete :
    (place_order ⟨100000, [], []⟩ "AAPL" "BUY" (some 100) 10 1).1 =
      ⟨98999, [("AAPL", 10, 100)], [⟨"AAPL", "BUY", 10, 10, 100⟩]⟩ ∧
    (place_order ⟨98999, [("AAPL", 10, 100)], [⟨"AAPL", "BUY", 10, 10, 100⟩]⟩
        "AAPL" "SELL" (some 110) 10 1).1 =
      ⟨100098, [], [⟨"AAPL", "BUY", 10, 10, 100⟩, ⟨"AAPL", "SELL", 10, 10, 110⟩]⟩ := by
  constructor <;>
    norm_num [place_order, pyUpper_BUY, pyUpper_SELL, pyUpper_AAPL, getPos, setPos, delPos,
      str_SELL_ne_BUY]

/-- C6: for every order _SimBroker.place_order executes successfully, the
filled quantity is at most the requested quantity; for a SELL the filled
quantity equals min(requested, held) and is at most the quantity held before
the order, which must have been positive; and a SELL against a zero holding
raises rather than filling. -/
theorem sim_filled_qty_bounds (st : SimState) (symbol side : String) (price : Option ℚ)
    (qty : ℤ) (fees : ℚ) :
    (∀ st' res, place_order st symbol side price qty fees = (st', PyResult.ok res) →
      res.filled_qty ≤ qty ∧
        (pyUpper side = "SELL" →
          res.filled_qty = min qty (getPos st.positions (pyUpper symbol)).1 ∧
          res.filled_qty ≤ (getPos st.positions (pyUpper symbol)).1 ∧
          0 < (getPos st.positions (pyUpper symbol)).1)) ∧
    (pyUpper side = "SELL" → (getPos st.positions (pyUpper symbol)).1 = 0 →
      ∃ msg st', place_order st symbol side price qty fees = (st', PyResult.raised msg)) := by
  constructor
  · intro st' res hok
    simp only [place_order] at hok
    by_cases hq : qty ≤ 0
    · rw [if_pos hq, Prod.mk.injEq] at hok
      exact absurd hok.2 (by simp)
    rw [if_neg hq] at hok
    by_cases hb : pyUpper side = "BUY"
    · rw [if_pos hb] at hok
      cases price with
      | none =>
          rw [Prod.mk.injEq] at hok
          exact absurd hok.2 (by simp)
      | some p =>
          simp only at hok
          by_cases hc : st.cash < p * (qty : ℚ) + fees
          · rw [if_pos hc, Prod.mk.injEq] at hok
            exact absurd hok.2 (by simp)
          · rw [if_neg hc, Prod.mk.injEq] at hok
            have hres := hok.2
            rw [PyResult.ok.injEq] at hres
            constructor
            · rw [← hres]
            · intro hside
              rw [hb] at hside
              exact absurd hside (by decide)
    rw [if_neg hb] at hok
    by_cases hs : pyUpper side = "SELL"
    · rw [if_pos hs] at hok
      by_cases hsq : min qty (getPos st.positions (pyUpper symbol)).1 ≤ 0
      · rw [if_pos hsq, Prod.mk.injEq] at hok
        exact absurd hok.2 (by simp)
      · rw [if_neg hsq] at hok
        cases price with
        | none =>
            rw [Prod.mk.injEq] at hok
            exact absurd hok.2 (by simp)
        | some p =>
            simp only [Prod.mk.injEq] at hok
            have hres := hok.2
            rw [PyResult.ok.injEq] at hres
            refine ⟨?_, fun _ => ⟨?_, ?_, ?_⟩⟩
            · rw [← hres]
              exact min_le_left _ _
            · rw [← hres]
            · rw [← hres]
              exact min_le_right _ _
            · exact lt_of_lt_of_le (not_le.mp hsq) (min_le_right _ _)
    · rw [if_neg hs, Prod.mk.injEq] at hok
      exact absurd hok.2 (by simp)
  · intro hs hheld
    by_cases hq : qty ≤ 0
    · exact ⟨_, st, by simp only [place_order]; rw [if_pos hq]⟩
    · simp only [place_order]
      rw [if_neg hq, if_neg (show ¬ pyUpper side = "BUY" by rw [hs]; exact str_SELL_ne_BUY),
        if_pos hs,
        if_pos (show min qty (getPos st.positions (pyUpper symbol)).1 ≤ 0 by
          rw [hheld]; exact min_le_right qty 0)]
      exact ⟨_, st, rfl⟩

/-- C6 witness: a concrete successful SELL of 3 of 5 held shares satisfies
the bounds, and a SELL with no holding raises. -/
theorem sim_filled_qty_bounds_wit :
    ((3 : ℤ) ≤ 3 ∧
      (pyUpper "sell" = "SELL" →
        (3 : ℤ) = min 3 (getPos [("AAPL", 5, 10)] (pyUpper "AAPL")).1 ∧
        (3 : ℤ) ≤ (getPos [("AAPL", 5, 10)] (pyUpper "AAPL")).1 ∧
        0 < (getPos [("AAPL", 5, 10)] (pyUpper "AAPL")).1)) ∧
    (∃ msg st', place_order ⟨1000, [], []⟩ "AAPL" "sell" (some 20) 3 0 =
      (st', PyResult.raised msg)) := by
  constructor
  · have hbounds := (sim_filled_qty_bounds ⟨1000, [("AAPL", 5, 10)], []⟩ "AAPL" "sell"
      (some 20) 3 0).1
    have happ := hbounds ⟨1000 + 60, [("AAPL", 2, 10)], [⟨"AAPL", "SELL", 3, 3, 20⟩]⟩
      ⟨"AAPL", "SELL", 3, 3, 20⟩
      (by norm_num [place_order, pyUpper_sell_lower, pyUpper_AAPL, getPos, setPos,
        str_SELL_ne_BUY])
    exact happ
  · have hfail := (sim_filled_qty_bounds ⟨1000, [], []⟩ "AAPL" "sell" (some 20) 3 0).2
    exact hfail pyUpper_sell_lower (by norm_num [getPos])

/-- C7: any price history with fewer than min(short, long) points yields the
HOLD signal: _compute_indicators returns the undefined pair and
_decide_signal maps undefined indicators to HOLD. -/
theorem signal_hold_on_short_history (short long : ℕ) (h : List ℚ)
    (hlen : h.length < min short long) :
    signalOf short long h = "HOLD" := by
  unfold signalOf computeIndicators
  rw [if_pos (Or.inr hlen)]
  rfl

/-- C7 witness: the empty history with short = 2, long = 3 gives HOLD. -/
theorem signal_hold_on_short_history_wit : signalOf 2 3 [] = "HOLD" :=
  signal_hold_on_short_history 2 3 [] (by norm_num)

/-- C8 counterexample: NaN equity passes the non-positivity guard (every
Python comparison with NaN is false), flows into alloc // price = NaN, and
int(NaN) raises ValueError, so compute_position_size_equity_pct raises
instead of returning 0 as the claim requires for non-finite inputs. -/
theorem sizing_nan_raises_cex :
    compute_position_size_equity_pct PyFloat.nan (PyFloat.fin 250) (PyFloat.fin (1 / 10)) =
      PyResult.raised ("ValueError: cannot convert float NaN to integer") := by
  norm_num [compute_position_size_equity_pct, PyFloat.le0, PyFloat.mul, PyFloat.fdiv,
    PyFloat.toPyInt]

/-- C8 (amended): both position-sizing functions return 0 for non-positive
guard inputs (equity, price/entry, percentage, including -inf, whose
comparison with 0 is true), never raise on finite inputs, and clamp every
computed quantity to at least 0; the defensive return of 0 does not extend
to NaN or +inf equity/price, where the int conversion raises instead. -/
theorem sizing_guards_and_clamp :
    (∀ e p a : ℚ, ∃ n : ℤ, 0 ≤ n ∧
      compute_position_size_equity_pct (.fin e) (.fin p) (.fin a) = .ok n) ∧
    (∀ equity price alloc_pct : PyFloat,
      (equity.le0 || price.le0 || alloc_pct.le0) = true →
      compute_position_size_equity_pct equity price alloc_pct = .ok 0) ∧
    (∀ e en sp r : ℚ, ∃ n : ℤ, 0 ≤ n ∧
      compute_position_size_risk_based (.fin e) (.fin en) (.fin sp) (.fin r) = .ok n) ∧
    (∀ equity entry_price stop_price risk_pct : PyFloat,
      (equity.le0 || entry_price.le0 || risk_pct.le0) = true →
      compute_position_size_risk_based equity entry_price stop_price risk_pct = .ok 0) := by
  refine ⟨?_, ?_, ?_, ?_⟩
  · intro e p a
    unfold compute_position_size_equity_pct
    by_cases hg : ((PyFloat.fin e).le0 || (PyFloat.fin p).le0 || (PyFloat.fin a).le0) = true
    · rw [if_pos hg]
      exact ⟨0, le_refl 0, rfl⟩
    · rw [if_neg hg]
      simp only [PyFloat.le0, Bool.or_eq_true, decide_eq_true_eq, not_or] at hg
      simp only [PyFloat.mul, PyFloat.fdiv]
      rw [if_neg (fun h0 : p = 0 => hg.1.2 (le_of_eq h0))]
      simp only [PyFloat.toPyInt]
      exact ⟨_, le_max_right _ 0, rfl⟩
  · intro equity price alloc_pct hguard
    unfold compute_position_size_equity_pct
    rw [if_pos hguard]
  · intro e en sp r
    unfold compute_position_size_risk_based
    by_cases hg : ((PyFloat.fin e).le0 || (PyFloat.fin en).le0 || (PyFloat.fin r).le0) = true
    · rw [if_pos hg]
      exact ⟨0, le_refl 0, rfl⟩
    · rw [if_neg hg]
      simp only [PyFloat.sub, PyFloat.pyabs]
      by_cases hz : (PyFloat.fin |en - sp|).le0 = true
      · rw [if_pos hz]
        exact ⟨0, le_refl 0, rfl⟩
      · rw [if_neg hz]
        simp only [PyFloat.le0, decide_eq_true_eq] at hz
        simp only [PyFloat.mul, PyFloat.fdiv]
        rw [if_neg (fun h0 : |en - sp| = 0 => hz (le_of_eq h0))]
        simp only [PyFloat.toPyInt]
        exact ⟨_, le_max_right _ 0, rfl⟩
  · intro equity entry_price stop_price risk_pct hguard
    unfold compute_position_size_risk_based
    rw [if_pos hguard]

/-- C8 witness: the amended claim at concrete inputs: positive finite inputs
give a clamped non-negative quantity; negative equity and -inf equity hit
the guards and give 0. -/
theorem sizing_guards_and_clamp_wit :
    (∃ n : ℤ, 0 ≤ n ∧
      compute_position_size_equity_pct (.fin 100000) (.fin 250) (.fin (1 / 10)) = .ok n) ∧
    compute_position_size_equity_pct (.fin (-5)) (.fin 250) (.fin (1 / 10)) = .ok 0 ∧
    (∃ n : ℤ, 0 ≤ n ∧
      compute_position_size_risk_based (.fin 100000) (.fin 250) (.fin 245) (.fin (1 / 100)) =
        .ok n) ∧
    compute_position_size_risk_based .ninf (.fin 250) (.fin 245) (.fin (1 / 100)) = .ok 0 := by
  obtain ⟨h1, h2, h3, h4⟩ := sizing_guards_and_clamp
  refine ⟨h1 100000 250 (1 / 10), h2 _ _ _ ?_, h3 100000 250 245 (1 / 100), h4 _ _ _ _ ?_⟩
  · simp only [PyFloat.le0, Bool.or_eq_true, decide_eq_true_eq]
    exact Or.inl (by norm_num)
  · simp [PyFloat.le0]

/-- C9: for positive equity, price and allocation percentage (and
non-negative slippage and commission), Runner._position_size_by_alloc
computes qty = floor((equity*alloc_pct - commission) / (price*(1 +
slippage_pct))) floored at 0, exactly the specified formula. -/
theorem position_size_alloc_formula (equity p alloc_pct slippage_pct commission : ℚ)
    (heq : 0 < equity) (hp : 0 < p) (hal : 0 < alloc_pct) (hsl : 0 ≤ slippage_pct)
    (hcom : 0 ≤ commission) :
    position_size_by_alloc equity (some p) alloc_pct slippage_pct commission =
      max 0 ⌊(equity * alloc_pct - commission) / (p * (1 + slippage_pct))⌋ := by
  simp only [position_size_by_alloc]
  rw [if_neg hp.ne']

/-- C9 witness: equity 100000, alloc 10 percent, price 250, zero slippage
and commission give the formula value, which evaluates to 40. -/
theorem position_size_alloc_formula_wit :
    position_size_by_alloc 100000 (some 250) (1 / 10) 0 0 =
      max 0 ⌊((100000 : ℚ) * (1 / 10) - 0) / (250 * (1 + 0))⌋ ∧
    max 0 ⌊((100000 : ℚ) * (1 / 10) - 0) / (250 * (1 + 0))⌋ = 40 := by
  constructor
  · exact position_size_alloc_formula 100000 250 (1 / 10) 0 0 (by norm_num) (by norm_num)
      (by norm_num) le_rfl le_rfl
  · rw [show ((100000 : ℚ) * (1 / 10) - 0) / (250 * (1 + 0)) = ((40 : ℤ) : ℚ) by norm_num,
      Int.floor_intCast]
    norm_num

/-- C10: quantizing 258.065 (whose decimal representation is exact in the
model) to 2 decimals with ROUND_HALF_UP rounds the half tie upward:
_AlpacaBroker._quantize_price formats it as the string 258.07 and
utils.quantize_price returns the value 258.07 = 25807/100, not 258.06. -/
theorem quantize_halfup_258065 :
    quantizePriceStr2 (258065 / 1000) = "258.07" ∧
    quantize_price (258065 / 1000) 2 = 25807 / 100 := by
  have hr : roundHalfUp (258065 / 1000 * 100) = 25807 := by
    unfold roundHalfUp
    rw [if_pos (by norm_num : (0 : ℚ) ≤ 258065 / 1000 * 100),
      show (258065 / 1000 * 100 + 1 / 2 : ℚ) = ((25807 : ℤ) : ℚ) by norm_num,
      Int.floor_intCast]
  constructor
  · simp only [quantizePriceStr2, hr]
    decide
  · unfold quantize_price
    rw [show ((10 : ℚ) ^ 2) = 100 by norm_num, hr]
    norm_num
